import Mathlib

/-!
Shallow embedding of the GPS-Based Date/Time Clock sketch
(src/2.5-20250308.ino) together with theorems settling the frozen claims.

Arduino `String` values are modelled by Lean `String` (the sketch only ever
stores ASCII characters in them), Arduino `int`/`byte` values by `Int`/`Nat`
(no computation in the sketch comes anywhere near the 16-bit overflow
boundary).  C `/` and `%` on `int` truncate toward zero, so they are
translated as `Int.tdiv` / `Int.tmod`.
-/

namespace GPSClock

/-! ## Arduino String primitives used by the sketch -/

/-- Arduino `String.substring(a, b)`: the characters in positions
`[a, b)`, clamped to the string. -/
def substr (s : String) (a b : Nat) : String :=
  ⟨(s.data.drop a).take (b - a)⟩

/-- Arduino `String.charAt(i)` (via `operator[]`): the character at
position `i`, or the NUL character when `i` is out of range. -/
def charAt (s : String) (i : Nat) : Char :=
  s.data.getD i (Char.ofNat 0)

/-- Longest run of decimal digits at the head of a character list. -/
def leadingDigits : List Char → List Char
  | [] => []
  | c :: cs => if c.isDigit then c :: leadingDigits cs else []

/-- Value of a list of decimal digit characters. -/
def digitsVal (l : List Char) : Nat :=
  l.foldl (fun a c => 10 * a + (c.toNat - 48)) 0

/-- Arduino `String.toInt()` (`atol`): parse an optional minus sign and the
leading run of digits, ignore the rest; a string with no leading digits
parses to 0.  (The sketch only ever applies it to digit substrings of the
GPS sentence, where this is exact.) -/
def toIntArd (s : String) : Int :=
  match s.data with
  | '-' :: rest => -(digitsVal (leadingDigits rest) : Int)
  | l => (digitsVal (leadingDigits l) : Int)

/-- Arduino `String.startsWith`, on character lists. -/
def charsBegin : List Char → List Char → Bool
  | [], _ => true
  | _ :: _, [] => false
  | a :: as, b :: bs => a == b && charsBegin as bs

/-- Arduino `data.startsWith(pat)`. -/
def beginsWith (s pat : String) : Bool :=
  charsBegin pat.data s.data

/-- Decimal digit characters of a natural number, structured with explicit
fuel so that the kernel can evaluate it; `fuel > n` always suffices since
the argument shrinks at least tenfold per step. -/
def natReprAux : Nat → Nat → List Char
  | 0, _ => []
  | fuel + 1, n =>
    if n < 10 then [Char.ofNat (48 + n)]
    else natReprAux fuel (n / 10) ++ [Char.ofNat (48 + n % 10)]

/-- Decimal digit characters of a natural number (the digits produced by
Arduino `String(int)` for a non-negative value). -/
def natRepr (n : Nat) : List Char := natReprAux (n + 1) n

/-- Arduino `String(int)`: decimal representation, with a leading minus
sign for negative values. -/
def istr (i : Int) : String :=
  if i < 0 then "-" ++ ⟨natRepr (-i).toNat⟩ else ⟨natRepr i.toNat⟩

/-! ## Calendar math (sketch lines 274-304) -/

/-- `daysInMonth(month, year)` from the sketch: February has 29 days in a
leap year (divisible by 4 and not by 100, or divisible by 400), otherwise
the Gregorian table is consulted at index `month - 1`. -/
def daysInMonth (month year : Int) : Int :=
  if month = 2 ∧ ((Int.tmod year 4 = 0 ∧ Int.tmod year 100 ≠ 0) ∨ Int.tmod year 400 = 0)
  then 29
  else [31, 28, 31, 30, 31, 30, 31, 31, 30, 31, 30, 31].getD (month - 1).toNat 0

/-- Running total of the `for (cnt = 1; cnt < month; cnt++)` loop in
`getNumberOfJulianDays`: sum of `daysInMonth` over months `1..n`. -/
def monthsSumAux (year : Int) : Nat → Int
  | 0 => 0
  | n + 1 => monthsSumAux year n + daysInMonth ((n : Int) + 1) year

/-- Numeric core of `getNumberOfJulianDays`: days of the months strictly
before `month`, plus `day`. -/
def julianDayOfYear (year month day : Int) : Int :=
  monthsSumAux year (month - 1).toNat + day

/-- Year field of a stored date string: positions 0-3 when the string is
YYYYMMDD (`calendarConfiguration == 1`), positions 4-7 when it is
MMDDYYYY.  This parse appears verbatim in `getNumberOfJulianDays` and in
`displayDateAndTime`. -/
def parsedYear (calendarConfiguration : Int) (date : String) : Int :=
  if calendarConfiguration = 1 then toIntArd (substr date 0 4)
  else toIntArd (substr date 4 8)

/-- Month field of a stored date string (see `parsedYear`). -/
def parsedMonth (calendarConfiguration : Int) (date : String) : Int :=
  if calendarConfiguration = 1 then toIntArd (substr date 4 6)
  else toIntArd (substr date 0 2)

/-- Day field of a stored date string (see `parsedYear`). -/
def parsedDay (calendarConfiguration : Int) (date : String) : Int :=
  if calendarConfiguration = 1 then toIntArd (substr date 6 8)
  else toIntArd (substr date 2 4)

/-- `getNumberOfJulianDays(date)` from the sketch: the date string is read
as YYYYMMDD when `calendarConfiguration == 1` and as MMDDYYYY otherwise,
then the day-of-year sum is computed. -/
def getNumberOfJulianDays (calendarConfiguration : Int) (date : String) : Int :=
  julianDayOfYear (parsedYear calendarConfiguration date)
    (parsedMonth calendarConfiguration date) (parsedDay calendarConfiguration date)

/-- One-day decrement, exactly as the rollover block that appears in both
`adjustDate` (lines 160-170) and `displayDateAndTime` (lines 381-390):
`day -= 1; if (day == 0) { month -= 1; if (month == 0) { month = 12;
year -= 1; } day = daysInMonth(month, year); }`. -/
def decrementOneDay (year month day : Int) : Int × Int × Int :=
  let day := day - 1
  if day = 0 then
    let month := month - 1
    if month = 0 then (year - 1, 12, daysInMonth 12 (year - 1))
    else (year, month, daysInMonth month year)
  else (year, month, day)

/-- `adjustDate(String &dateStr, int localHours, int utcHours)` from the
sketch (lines 154-171).  The C function receives `dateStr` by reference,
parses it into local `year`/`month`/`day` variables and conditionally
computes a one-day-earlier value for them, but contains no statement that
assigns to `dateStr`; the function returns with the reference parameter
holding its original value, which is what this definition returns. -/
def adjustDate (dateStr : String) (localHours utcHours : Int) : String :=
  let year := toIntArd (substr dateStr 0 4)
  let month := toIntArd (substr dateStr 4 6)
  let day := toIntArd (substr dateStr 6 8)
  let _discarded :=
    if localHours < utcHours then decrementOneDay year month day
    else (year, month, day)
  dateStr

/-! ## Segment encoder (sketch lines 92-115 and 466-473) -/

/-- The `sevenSegmentDigits` table from the sketch, written with the same
binary literals.  Per the sketch's comment the most significant bit is the
decimal point and the lower seven bits are segments A (bit 6) down to
G (bit 0). -/
def sevenSegmentDigits : List Nat :=
  [0b01111110, -- 0
   0b00110000, -- 1
   0b01101101, -- 2
   0b01111001, -- 3
   0b00110011, -- 4
   0b01011011, -- 5
   0b01011111, -- 6
   0b01110000, -- 7
   0b01111111, -- 8
   0b01111011] -- 9

/-- `sevenSegmentPosition` digit-register opcodes, leftmost module first. -/
def sevenSegmentPosition : List Nat := [8, 7, 6, 5, 4, 3, 2, 1]

/-- `charToSevenSegment(char)` from the sketch: the table entry for a
decimal digit character, 0 (all segments off) for anything else. -/
def charToSevenSegment (character : Char) : Nat :=
  if '0' ≤ character ∧ character ≤ '9' then
    sevenSegmentDigits.getD (character.toNat - 48) 0
  else 0

/-- Which of the segments A,B,C,D,E,F,G (in that order) are lit for each
decimal digit on the sketch's displays, as drawn in the sketch's segment
diagram. -/
def litSegments : Nat → List Bool
  | 0 => [true, true, true, true, true, true, false]
  | 1 => [false, true, true, false, false, false, false]
  | 2 => [true, true, false, true, true, false, true]
  | 3 => [true, true, true, true, false, false, true]
  | 4 => [false, true, true, false, false, true, true]
  | 5 => [true, false, true, true, false, true, true]
  | 6 => [true, false, true, true, true, true, true]
  | 7 => [true, true, true, false, false, false, false]
  | 8 => [true, true, true, true, true, true, true]
  | 9 => [true, true, true, true, false, true, true]
  | _ => [false, false, false, false, false, false, false]

/-- A bit list read most-significant-bit first, as a number. -/
def bitsToNat (l : List Bool) : Nat :=
  l.foldl (fun a b => 2 * a + (if b then 1 else 0)) 0

/-- Pattern for digit `d` under the bit order the sketch documents:
decimal point in the most significant bit (clear), then segments A..G. -/
def patternDPmsb (d : Nat) : Nat :=
  bitsToNat (false :: litSegments d)

/-- Pattern for digit `d` under the bit order the claim describes:
segments A..G in the upper seven bits, decimal point in the least
significant bit (clear). -/
def patternDPlsb (d : Nat) : Nat :=
  bitsToNat (litSegments d ++ [false])

/-! ## Sentence parser (sketch lines 216-272) -/

/-- Field-splitting loop of `parseGPSData` (lines 219-229), as the trace of
writes it performs on the `String parts[13]` array.  Walking the sentence,
each comma emits the write `parts[partsIndex++] = accumulated field`; after
the loop one final write stores the tail of the sentence.  The returned
list holds the `(index, value)` pairs in program order; the C array is in
bounds only for indices `0..12`. -/
def splitLoop : List Char → Nat → String → List (Nat × String)
  | [], partsIndex, acc => [(partsIndex, acc)]
  | c :: cs, partsIndex, acc =>
      if c = ',' then (partsIndex, acc) :: splitLoop cs (partsIndex + 1) ""
      else splitLoop cs partsIndex (acc.push c)

/-- All `parts[...]` writes performed while splitting `data`. -/
def splitWrites (data : String) : List (Nat × String) :=
  splitLoop data.data 0 ""

/-- Number of commas in the sentence. -/
def commaCount (data : String) : Nat :=
  data.data.countP (fun c => c == ',')

/-- Value left in `parts[n]`: the split loop writes each index at most
once, and indices never written keep the empty string the array was
initialized with. -/
def partsVal (data : String) (n : Nat) : String :=
  ((splitWrites data).lookup n).getD ""

/-- Global state of the sketch that the parser/formatter pipeline reads and
writes: the `dateStr` and `julianDays` globals (lines 125-126). -/
structure ClockState where
  dateStr : String
  julianDays : String
  deriving DecidableEq

/-- Switch- and constant-derived configuration read by the pipeline:
`timeZoneOffsetHours`, `timeZoneOffsetMinutes`, `calendarConfiguration`,
`julianDateConfiguration`. -/
structure Config where
  timeZoneOffsetHours : Int
  timeZoneOffsetMinutes : Int
  calendarConfiguration : Int
  julianDateConfiguration : Int
  deriving DecidableEq

/-- The `dateStr` assignment of `parseGPSData` (lines 235-240): the DDMMYY
field 9 is rearranged as `"20" ++ YY ++ MM ++ DD` (year first) when
`calendarConfiguration == 1`, and as `MM ++ DD ++ "20" ++ YY` otherwise. -/
def utcDateString (calendarConfiguration : Int) (field9 : String) : String :=
  if calendarConfiguration = 1 then
    "20" ++ substr field9 4 6 ++ substr field9 2 4 ++ substr field9 0 2
  else
    substr field9 2 4 ++ substr field9 0 2 ++ "20" ++ substr field9 4 6

/-- Result of the valid-sentence arithmetic of `parseGPSData`
(lines 233-266): the stored date string, the normalized local time and the
day-of-year count that are passed on to `displayDateAndTime`. -/
structure Resolved where
  dateStr : String
  localHours : Int
  minutes : Int
  seconds : Int
  numberOfDays : Int
  deriving DecidableEq

/-- Arithmetic of the valid-sentence branch of `parseGPSData`
(lines 233-266): build `dateStr` from field 9, split the time field, apply
the hour/minute offsets, normalize minute overflow/underflow, and when the
local hour is negative add 24 and call `adjustDate`; finally compute the
day-of-year count from the stored date string. -/
def resolveStage (cfg : Config) (data : String) : Resolved :=
  let parts1 := partsVal data 1
  let timeStrUTC := substr parts1 0 2 ++ substr parts1 2 4 ++ substr parts1 4 6
  let dateStr := utcDateString cfg.calendarConfiguration (partsVal data 9)
  let utcHours := toIntArd (substr timeStrUTC 0 2)
  let localHours := utcHours + cfg.timeZoneOffsetHours
  let minutes := toIntArd (substr timeStrUTC 2 4) + cfg.timeZoneOffsetMinutes
  let seconds := toIntArd (substr timeStrUTC 4 6)
  let hm : Int × Int :=
    if 60 ≤ minutes then (localHours + 1, minutes - 60)
    else if minutes < 0 then (localHours - 1, minutes + 60)
    else (localHours, minutes)
  let hd : Int × String :=
    if hm.1 < 0 then (hm.1 + 24, adjustDate dateStr (hm.1 + 24) utcHours)
    else (hm.1, dateStr)
  { dateStr := hd.2
    localHours := hd.1
    minutes := hm.2
    seconds := seconds
    numberOfDays := getNumberOfJulianDays cfg.calendarConfiguration hd.2 }

/-! ## Display formatter (sketch lines 361-448) -/

/-- Two-character zero-padded rendering `String(i / 10) + String(i % 10)`
used throughout `displayDateAndTime`. -/
def twoDig (i : Int) : String :=
  istr (Int.tdiv i 10) ++ istr (Int.tmod i 10)

/-- Late-evening correction of `displayDateAndTime` (lines 366-400): when
`hours >= 24 + timeZoneOffsetHours && hours < 24`, re-parse the date string
(per the calendar switch), move it one day back together with the
day-of-year count, and reassemble the date string; otherwise both pass
through unchanged. -/
def adjustedDateAndDays (cfg : Config) (date : String) (hours numberOfDays : Int) :
    String × Int :=
  if 24 + cfg.timeZoneOffsetHours ≤ hours ∧ hours < 24 then
    let ymd := decrementOneDay (parsedYear cfg.calendarConfiguration date)
      (parsedMonth cfg.calendarConfiguration date) (parsedDay cfg.calendarConfiguration date)
    let newDate :=
      if cfg.calendarConfiguration = 1 then
        istr ymd.1 ++ twoDig ymd.2.1 ++ twoDig ymd.2.2
      else
        twoDig ymd.2.1 ++ twoDig ymd.2.2 ++ istr ymd.1
    (newDate, numberOfDays - 1)
  else (date, numberOfDays)

/-- `julianDays` string assembly of `displayDateAndTime` (lines 406-441):
with the Julian switch at 1 the row is `"00" ++ two year digits taken from
the date row ++ zero-padded day count`; otherwise it is the day count
zero-padded to five characters. -/
def julianRowStr (julianDateConfiguration calendarConfiguration : Int)
    (date : String) (numberOfDays : Int) : String :=
  if julianDateConfiguration = 1 then
    let yy := if calendarConfiguration = 1 then substr date 2 4 else substr date 6 8
    if numberOfDays < 10 then "00" ++ yy ++ "00" ++ istr numberOfDays
    else if numberOfDays < 100 then "00" ++ yy ++ "0" ++ istr numberOfDays
    else "00" ++ yy ++ istr numberOfDays
  else
    if numberOfDays < 10 then "0000" ++ istr numberOfDays
    else if numberOfDays < 100 then "000" ++ istr numberOfDays
    else "00" ++ istr numberOfDays

/-- `timeStr` assembly of `displayDateAndTime` (line 447). -/
def timeRowStr (hours minutes seconds : Int) : String :=
  "00" ++ twoDig hours ++ twoDig minutes ++ twoDig seconds

/-- The three formatted rows (and the adjusted day count) that
`displayDateAndTime` feeds to the transmission loop. -/
structure FormatResult where
  dateRow : String
  timeRow : String
  julianRow : String
  adjDays : Int
  deriving DecidableEq

/-- String-building part of `displayDateAndTime` (lines 361-448):
`hours %= 24`, the late-evening one-day correction, and the assembly of
the date, time and Julian-day rows. -/
def formatRows (cfg : Config) (date0 : String) (hours0 minutes seconds numberOfDays0 : Int) :
    FormatResult :=
  let hours := Int.tmod hours0 24
  let dn := adjustedDateAndDays cfg date0 hours numberOfDays0
  { dateRow := dn.1
    timeRow := timeRowStr hours minutes seconds
    julianRow := julianRowStr cfg.julianDateConfiguration cfg.calendarConfiguration dn.1 dn.2
    adjDays := dn.2 }

/-! ## Chip driver (sketch lines 337-355 and 451-461) -/

/-- Arguments of one `sendRegister` call: opcode/data pair for the
Julian-days chip (transmitted first, farthest from the data pin), then for
the time chip, then for the date chip. -/
structure RegWrite where
  opJ : Nat
  dJ : Nat
  opT : Nat
  dT : Nat
  opD : Nat
  dD : Nat
  deriving DecidableEq

/-- Observable events on the MAX7219 bus: chip-select edges and single
data bits. -/
inductive BusEvent where
  | csLow : BusEvent
  | csHigh : BusEvent
  | bit : Nat → BusEvent
  deriving DecidableEq

/-- `shiftOut(..., MSBFIRST, b)`: the eight bits of `b`, most significant
first. -/
def shiftOutMSBFirst (b : Nat) : List Nat :=
  (List.range 8).map (fun i => b / 2 ^ (7 - i) % 2)

/-- `sendRegister` (lines 337-347): pull chip select low, shift out the
three opcode/data pairs MSB first — Julian-days chip first, then time,
then date — and raise chip select to latch. -/
def sendRegister (w : RegWrite) : List BusEvent :=
  [BusEvent.csLow] ++
    ((shiftOutMSBFirst w.opJ ++ shiftOutMSBFirst w.dJ ++
      shiftOutMSBFirst w.opT ++ shiftOutMSBFirst w.dT ++
      shiftOutMSBFirst w.opD ++ shiftOutMSBFirst w.dD).map BusEvent.bit) ++
  [BusEvent.csHigh]

/-- Data bits carried by a stretch of bus events, in order. -/
def bitsOf (es : List BusEvent) : List Nat :=
  es.filterMap fun e =>
    match e with
    | BusEvent.bit b => some b
    | _ => none

/-- Value of a bit list read in transmission order, first bit most
significant: this is how a MAX7219 assembles the shifted-in bits. -/
def byteOfBits (l : List Nat) : Nat :=
  l.foldl (fun a b => 2 * a + b) 0

/-- Transmission loop of `displayDateAndTime` (lines 451-461): for each of
the 8 digit positions, one combined `sendRegister` call carrying the
position opcode and the encoded Julian/time/date characters at that
position. -/
def frameWrites (r : FormatResult) : List RegWrite :=
  (List.range 8).map fun i =>
    { opJ := sevenSegmentPosition.getD i 0
      dJ := charToSevenSegment (charAt r.julianRow i)
      opT := sevenSegmentPosition.getD i 0
      dT := charToSevenSegment (charAt r.timeRow i)
      opD := sevenSegmentPosition.getD i 0
      dD := charToSevenSegment (charAt r.dateRow i) }

/-- `displayDateAndTime` (lines 361-462): build the rows, store the new
`julianDays` global, and emit the 8 register writes. -/
def displayDateAndTime (cfg : Config) (date : String)
    (hours minutes seconds numberOfDays : Int) : String × List RegWrite :=
  let r := formatRows cfg date hours minutes seconds numberOfDays
  (r.julianRow, frameWrites r)

/-- `parseGPSData` (lines 216-272) as a transition on the global state:
a sentence that does not begin with the `$GPRMC` tag, or whose validity
field `parts[2]` is not `"A"`, changes nothing and transmits nothing;
otherwise the resolver arithmetic runs, the globals are updated and the
frame is transmitted. -/
def parseGPSData (cfg : Config) (st : ClockState) (data : String) :
    ClockState × List RegWrite :=
  if beginsWith data "$GPRMC" then
    if partsVal data 2 = "A" then
      let r := resolveStage cfg data
      let jw := displayDateAndTime cfg r.dateStr r.localHours r.minutes r.seconds
        r.numberOfDays
      ({ dateStr := r.dateStr, julianDays := jw.1 }, jw.2)
    else (st, [])
  else (st, [])

/-- Rows produced by the parse-resolve-format pipeline for one sentence. -/
def pipelineRows (cfg : Config) (data : String) : FormatResult :=
  let r := resolveStage cfg data
  formatRows cfg r.dateStr r.localHours r.minutes r.seconds r.numberOfDays

/-! ## Helper lemmas -/

/-- The current revision's `adjustDate` never assigns to its reference
parameter, so it returns the date string unchanged. -/
theorem adjustDate_id (dateStr : String) (localHours utcHours : Int) :
    adjustDate dateStr localHours utcHours = dateStr := rfl

/-- Second projection of a conditional whose branches share their second
component. -/
theorem snd_ite_pair {c : Prop} [Decidable c] (a b : Int) (u : String) :
    (if c then (a, u) else (b, u)).2 = u := by
  split <;> rfl

/-- Fuel does not matter for `natReprAux` once it exceeds the argument. -/
theorem natReprAux_irrel (f1 : Nat) : ∀ (f2 n : Nat), n < f1 → n < f2 →
    natReprAux f1 n = natReprAux f2 n := by
  induction f1 with
  | zero => intro f2 n h1 h2; omega
  | succ f1 ih =>
    intro f2 n h1 h2
    cases f2 with
    | zero => omega
    | succ f2 =>
      simp only [natReprAux]
      by_cases h10 : n < 10
      · rw [if_pos h10, if_pos h10]
      · rw [if_neg h10, if_neg h10]
        have hdiv : n / 10 < n := Nat.div_lt_self (by omega) (by omega)
        rw [ih f2 (n / 10) (by omega) (by omega)]

/-- A single-digit number renders as one character. -/
theorem natRepr_lt10 (n : Nat) (h : n < 10) : natRepr n = [Char.ofNat (48 + n)] := by
  simp only [natRepr, natReprAux, if_pos h]

/-- A multi-digit number renders as its leading digits followed by its last
digit. -/
theorem natRepr_ge10 (n : Nat) (h : ¬n < 10) :
    natRepr n = natRepr (n / 10) ++ [Char.ofNat (48 + n % 10)] := by
  have hdiv : n / 10 < n := Nat.div_lt_self (by omega) (by omega)
  show natReprAux (n + 1) n = _
  simp only [natReprAux, if_neg h]
  rw [natReprAux_irrel n (n / 10 + 1) (n / 10) (by omega) (by omega)]
  rfl

/-- A number between `10^k` and `10^(k+1)` renders with `k + 1` digits. -/
theorem natRepr_length (k : Nat) : ∀ n : Nat, 10 ^ k ≤ n → n < 10 ^ (k + 1) →
    (natRepr n).length = k + 1 := by
  induction k with
  | zero =>
    intro n h1 h2
    rw [natRepr_lt10 n (by norm_num at h2; omega)]
    rfl
  | succ k ih =>
    intro n h1 h2
    have hpow : (10 : Nat) ^ 1 ≤ 10 ^ (k + 1) := Nat.pow_le_pow_right (by norm_num) (by omega)
    have h10 : ¬n < 10 := by
      rw [pow_one] at hpow
      omega
    rw [natRepr_ge10 n h10, List.length_append]
    rw [pow_succ] at h1
    rw [pow_succ] at h2
    have hd1 : 10 ^ k ≤ n / 10 := (Nat.le_div_iff_mul_le (by norm_num)).mpr h1
    have hd2 : n / 10 < 10 ^ (k + 1) := (Nat.div_lt_iff_lt_mul (by norm_num)).mpr h2
    rw [ih (n / 10) hd1 hd2]
    rfl

/-- Arduino `String(int)` of a non-negative value is the digit rendering. -/
theorem istr_of_nonneg (i : Int) (h : 0 ≤ i) : istr i = ⟨natRepr i.toNat⟩ := by
  unfold istr
  rw [if_neg (by omega)]

/-- One rendered character for values 0 to 9. -/
theorem istr_len_one (i : Int) (h0 : 0 ≤ i) (h9 : i ≤ 9) : (istr i).length = 1 := by
  rw [istr_of_nonneg i h0]
  show (natRepr i.toNat).length = 1
  rw [natRepr_lt10 _ (by omega)]
  rfl

/-- Digit count of `istr` from a power-of-ten sandwich. -/
theorem istr_len_pow (k : Nat) (i : Int) (h1 : ((10 : Nat) ^ k : Int) ≤ i)
    (h2 : i < ((10 : Nat) ^ (k + 1) : Int)) : (istr i).length = k + 1 := by
  have h0 : 0 ≤ i := le_trans (by positivity) h1
  rw [istr_of_nonneg i h0]
  show (natRepr i.toNat).length = k + 1
  exact natRepr_length k i.toNat (by omega) (by omega)

/-- Two rendered characters for values 10 to 99. -/
theorem istr_len_two (i : Int) (h1 : 10 ≤ i) (h2 : i ≤ 99) : (istr i).length = 2 :=
  istr_len_pow 1 i (by norm_num; omega) (by norm_num; omega)

/-- Three rendered characters for values 100 to 999. -/
theorem istr_len_three (i : Int) (h1 : 100 ≤ i) (h2 : i ≤ 999) : (istr i).length = 3 :=
  istr_len_pow 2 i (by norm_num; omega) (by norm_num; omega)

/-- Four rendered characters for values 1000 to 9999. -/
theorem istr_len_four (i : Int) (h1 : 1000 ≤ i) (h2 : i ≤ 9999) : (istr i).length = 4 :=
  istr_len_pow 3 i (by norm_num; omega) (by norm_num; omega)

/-- The zero-padded pair rendering is always two characters for values
0 to 99. -/
theorem twoDig_len (i : Int) (h0 : 0 ≤ i) (h : i ≤ 99) : (twoDig i).length = 2 := by
  unfold twoDig
  rw [Int.tdiv_eq_ediv h0 (by norm_num), Int.tmod_eq_emod h0 (by norm_num),
    String.length_append,
    istr_len_one _ (by omega) (by omega), istr_len_one _ (by omega) (by omega)]

/-- Length of an Arduino substring. -/
theorem substr_len (s : String) (a b : Nat) :
    (substr s a b).length = min (b - a) (s.length - a) := by
  show ((s.data.drop a).take (b - a)).length = min (b - a) (s.data.length - a)
  simp [List.length_take, List.length_drop]

/-- Unfolding `daysInMonth` for a month other than February. -/
theorem daysInMonth_ne_two (m y : Int) (h : m ≠ 2) :
    daysInMonth m y = [31, 28, 31, 30, 31, 30, 31, 31, 30, 31, 30, 31].getD (m - 1).toNat 0 := by
  unfold daysInMonth
  rw [if_neg (fun hc => h hc.1)]

/-- January has 31 days. -/
theorem daysInMonth_one (y : Int) : daysInMonth 1 y = 31 := by
  rw [daysInMonth_ne_two 1 y (by norm_num)]; decide

/-- March has 31 days. -/
theorem daysInMonth_three (y : Int) : daysInMonth 3 y = 31 := by
  rw [daysInMonth_ne_two 3 y (by norm_num)]; decide

/-- April has 30 days. -/
theorem daysInMonth_four (y : Int) : daysInMonth 4 y = 30 := by
  rw [daysInMonth_ne_two 4 y (by norm_num)]; decide

/-- May has 31 days. -/
theorem daysInMonth_five (y : Int) : daysInMonth 5 y = 31 := by
  rw [daysInMonth_ne_two 5 y (by norm_num)]; decide

/-- June has 30 days. -/
theorem daysInMonth_six (y : Int) : daysInMonth 6 y = 30 := by
  rw [daysInMonth_ne_two 6 y (by norm_num)]; decide

/-- July has 31 days. -/
theorem daysInMonth_seven (y : Int) : daysInMonth 7 y = 31 := by
  rw [daysInMonth_ne_two 7 y (by norm_num)]; decide

/-- August has 31 days. -/
theorem daysInMonth_eight (y : Int) : daysInMonth 8 y = 31 := by
  rw [daysInMonth_ne_two 8 y (by norm_num)]; decide

/-- September has 30 days. -/
theorem daysInMonth_nine (y : Int) : daysInMonth 9 y = 30 := by
  rw [daysInMonth_ne_two 9 y (by norm_num)]; decide

/-- October has 31 days. -/
theorem daysInMonth_ten (y : Int) : daysInMonth 10 y = 31 := by
  rw [daysInMonth_ne_two 10 y (by norm_num)]; decide

/-- November has 30 days. -/
theorem daysInMonth_eleven (y : Int) : daysInMonth 11 y = 30 := by
  rw [daysInMonth_ne_two 11 y (by norm_num)]; decide

/-- December has 31 days. -/
theorem daysInMonth_twelve (y : Int) : daysInMonth 12 y = 31 := by
  rw [daysInMonth_ne_two 12 y (by norm_num)]; decide

/-- February has 29 days exactly in a leap year. -/
theorem daysInMonth_two (y : Int) :
    daysInMonth 2 y =
      if (Int.tmod y 4 = 0 ∧ Int.tmod y 100 ≠ 0) ∨ Int.tmod y 400 = 0 then 29 else 28 := by
  unfold daysInMonth
  by_cases hl : (Int.tmod y 4 = 0 ∧ Int.tmod y 100 ≠ 0) ∨ Int.tmod y 400 = 0
  · rw [if_pos ⟨rfl, hl⟩, if_pos hl]
  · rw [if_neg (fun hc => hl hc.2), if_neg hl]
    decide

/-- Month lengths are never negative (even outside the 1..12 range the
sketch's table lookup defaults to 0). -/
theorem daysInMonth_nonneg (m y : Int) : 0 ≤ daysInMonth m y := by
  unfold daysInMonth
  split
  · omega
  · rcases Nat.lt_or_ge (m - 1).toNat 12 with h | h
    · set i := (m - 1).toNat with hi
      interval_cases i <;> decide
    · rw [List.getD_eq_default _ _ (by simpa using h)]

/-- Running month-length totals are never negative. -/
theorem monthsSumAux_nonneg (y : Int) (n : Nat) : 0 ≤ monthsSumAux y n := by
  induction n with
  | zero => simp [monthsSumAux]
  | succ k ih =>
    have := daysInMonth_nonneg ((k : Int) + 1) y
    simp only [monthsSumAux]
    omega

/-- The sketch's summation loop computes the `Finset` sum of the month
lengths strictly before the given month. -/
theorem monthsSumAux_eq_sum (year : Int) (n : Nat) :
    monthsSumAux year n = ∑ m in Finset.range n, daysInMonth ((m : Int) + 1) year := by
  induction n with
  | zero => simp [monthsSumAux]
  | succ k ih => simp [monthsSumAux, Finset.sum_range_succ, ih]

/-- Every in-range month has between 28 and 31 days. -/
theorem daysInMonth_bounds (m y : Int) (h1 : 1 ≤ m) (h2 : m ≤ 12) :
    28 ≤ daysInMonth m y ∧ daysInMonth m y ≤ 31 := by
  interval_cases m <;>
    simp only [daysInMonth_one, daysInMonth_two, daysInMonth_three, daysInMonth_four,
      daysInMonth_five, daysInMonth_six, daysInMonth_seven, daysInMonth_eight,
      daysInMonth_nine, daysInMonth_ten, daysInMonth_eleven, daysInMonth_twelve] <;>
    omega

/-- The one-day decrement keeps year, month and day within expected
bounds for valid input ranges. -/
theorem decrementOneDay_bounds (y m d : Int) (hm1 : 1 ≤ m) (hm2 : m ≤ 12)
    (hd1 : 1 ≤ d) (hd2 : d ≤ 31) :
    y - 1 ≤ (decrementOneDay y m d).1 ∧ (decrementOneDay y m d).1 ≤ y
    ∧ 1 ≤ (decrementOneDay y m d).2.1 ∧ (decrementOneDay y m d).2.1 ≤ 12
    ∧ 0 ≤ (decrementOneDay y m d).2.2 ∧ (decrementOneDay y m d).2.2 ≤ 31 := by
  simp only [decrementOneDay]
  split_ifs with h1 h2
  · have := daysInMonth_bounds 12 (y - 1) (by norm_num) (by norm_num)
    dsimp only
    refine ⟨by omega, by omega, by omega, by omega, by omega, by omega⟩
  · have := daysInMonth_bounds (m - 1) y (by omega) (by omega)
    dsimp only
    refine ⟨by omega, by omega, by omega, by omega, by omega, by omega⟩
  · dsimp only
    refine ⟨by omega, by omega, by omega, by omega, by omega, by omega⟩

/-- The time row is always 8 characters for two-digit field values. -/
theorem timeRowStr_len (h m s : Int) (hh0 : 0 ≤ h) (hh : h ≤ 99)
    (hm0 : 0 ≤ m) (hm : m ≤ 99) (hs0 : 0 ≤ s) (hs : s ≤ 99) :
    (timeRowStr h m s).length = 8 := by
  unfold timeRowStr
  rw [String.length_append, String.length_append, String.length_append,
    twoDig_len h hh0 hh, twoDig_len m hm0 hm, twoDig_len s hs0 hs]
  decide

/-- The Julian row is 7 characters in year-plus-days mode and 5 characters
in days-only mode. -/
theorem julianRowStr_len (j c : Int) (date : String) (n : Int)
    (hdate : date.length = 8) (h0 : 0 ≤ n) (h9 : n ≤ 999) :
    (julianRowStr j c date n).length = if j = 1 then 7 else 5 := by
  have hyy24 : (substr date 2 4).length = 2 := by
    rw [substr_len, hdate]
    decide
  have hyy68 : (substr date 6 8).length = 2 := by
    rw [substr_len, hdate]
    decide
  unfold julianRowStr
  split_ifs
  all_goals simp only [String.length_append, hyy24, hyy68]
  all_goals first
    | (rw [istr_len_one n h0 (by omega)]; decide)
    | (rw [istr_len_two n (by omega) (by omega)]; decide)
    | (rw [istr_len_three n (by omega) (by omega)]; decide)

/-- The formatter's late-evening correction preserves the 8-character date
row and keeps the adjusted day count in range. -/
theorem adjustedDateAndDays_spec (cfg : Config) (date : String) (hours n0 : Int)
    (hdate : date.length = 8)
    (hy1 : 1001 ≤ parsedYear cfg.calendarConfiguration date)
    (hy2 : parsedYear cfg.calendarConfiguration date ≤ 9999)
    (hm1 : 1 ≤ parsedMonth cfg.calendarConfiguration date)
    (hm2 : parsedMonth cfg.calendarConfiguration date ≤ 12)
    (hd1 : 1 ≤ parsedDay cfg.calendarConfiguration date)
    (hd2 : parsedDay cfg.calendarConfiguration date ≤ 31)
    (hn1 : 1 ≤ n0) (hn2 : n0 ≤ 366) :
    (adjustedDateAndDays cfg date hours n0).1.length = 8
    ∧ 0 ≤ (adjustedDateAndDays cfg date hours n0).2
    ∧ (adjustedDateAndDays cfg date hours n0).2 ≤ 366 := by
  have hb := decrementOneDay_bounds (parsedYear cfg.calendarConfiguration date)
    (parsedMonth cfg.calendarConfiguration date)
    (parsedDay cfg.calendarConfiguration date) hm1 hm2 hd1 hd2
  have hylen : (istr (decrementOneDay (parsedYear cfg.calendarConfiguration date)
      (parsedMonth cfg.calendarConfiguration date)
      (parsedDay cfg.calendarConfiguration date)).1).length = 4 :=
    istr_len_four _ (by omega) (by omega)
  have hmlen : (twoDig (decrementOneDay (parsedYear cfg.calendarConfiguration date)
      (parsedMonth cfg.calendarConfiguration date)
      (parsedDay cfg.calendarConfiguration date)).2.1).length = 2 :=
    twoDig_len _ (by omega) (by omega)
  have hdlen : (twoDig (decrementOneDay (parsedYear cfg.calendarConfiguration date)
      (parsedMonth cfg.calendarConfiguration date)
      (parsedDay cfg.calendarConfiguration date)).2.2).length = 2 :=
    twoDig_len _ (by omega) (by omega)
  simp only [adjustedDateAndDays]
  split_ifs with hbr hcal
  · refine ⟨?_, by dsimp only; omega, by dsimp only; omega⟩
    dsimp only
    rw [String.length_append, String.length_append, hylen, hmlen, hdlen]
  · refine ⟨?_, by dsimp only; omega, by dsimp only; omega⟩
    dsimp only
    rw [String.length_append, String.length_append, hylen, hmlen, hdlen]
  · exact ⟨hdate, by omega, by omega⟩

/-- Splitting into bus events is additive over concatenation. -/
theorem bitsOf_append (l1 l2 : List BusEvent) :
    bitsOf (l1 ++ l2) = bitsOf l1 ++ bitsOf l2 := by
  simp [bitsOf]

/-- Data bits of a pure bit stream are the bits themselves. -/
theorem bitsOf_mapBit (l : List Nat) : bitsOf (l.map BusEvent.bit) = l := by
  induction l with
  | nil => rfl
  | cons a l ih =>
    simp only [bitsOf, List.map_cons, List.filterMap_cons] at *
    simpa using ih

/-- A shifted-out byte occupies exactly 8 bit events. -/
theorem shiftOut_length (b : Nat) : (shiftOutMSBFirst b).length = 8 := by
  simp [shiftOutMSBFirst]

set_option maxRecDepth 4096 in
/-- Reassembling the MSB-first bit stream recovers the transmitted byte. -/
theorem byteOfBits_shiftOut : ∀ b : Nat, b < 256 → byteOfBits (shiftOutMSBFirst b) = b := by
  decide

/-- Indices written by the splitting loop never exceed the starting index
plus the number of commas left to scan. -/
theorem splitLoop_fst_le (l : List Char) :
    ∀ (pI : Nat) (acc : String), ∀ p ∈ splitLoop l pI acc,
      p.1 ≤ pI + l.countP (fun c => c == ',') := by
  induction l with
  | nil =>
    intro pI acc p hp
    simp only [splitLoop, List.mem_singleton] at hp
    subst hp
    simp
  | cons c cs ih =>
    intro pI acc p hp
    simp only [splitLoop] at hp
    by_cases hc : c = ','
    · rw [if_pos hc] at hp
      have hcount : (c :: cs).countP (fun x => x == ',') =
          cs.countP (fun x => x == ',') + 1 := by
        simp [List.countP_cons, hc]
      rcases List.mem_cons.mp hp with hp | hp
      · subst hp
        have hfst : ((pI, acc)).1 = pI := rfl
        omega
      · have := ih (pI + 1) "" p hp
        omega
    · rw [if_neg hc] at hp
      have hcount : (c :: cs).countP (fun x => x == ',') =
          cs.countP (fun x => x == ',') := by
        simp [List.countP_cons, hc]
      have := ih pI (acc.push c) p hp
      omega

/-! ## Claim theorems -/

/-- C1: for the sentence `$GPRMC,031520,A,...,200425,...` (UTC time
03:15:20, valid fix, UTC date 20 Apr 2025) with time-zone offset -5 hours
and year-first date order, the parse-resolve-format pipeline accepts the
sentence and produces the date row `"20250419"`, the time row
`"00221520"`, and day-of-year 109. -/
theorem c1_end_to_end :
    beginsWith "$GPRMC,031520,A,3704.8298,N,07624.7225,W,0.12,266.69,200425,,,D*7F"
      "$GPRMC" = true
    ∧ partsVal "$GPRMC,031520,A,3704.8298,N,07624.7225,W,0.12,266.69,200425,,,D*7F" 2
      = "A"
    ∧ (pipelineRows ⟨-5, 0, 1, 0⟩
        "$GPRMC,031520,A,3704.8298,N,07624.7225,W,0.12,266.69,200425,,,D*7F").dateRow
      = "20250419"
    ∧ (pipelineRows ⟨-5, 0, 1, 0⟩
        "$GPRMC,031520,A,3704.8298,N,07624.7225,W,0.12,266.69,200425,,,D*7F").timeRow
      = "00221520"
    ∧ (pipelineRows ⟨-5, 0, 1, 0⟩
        "$GPRMC,031520,A,3704.8298,N,07624.7225,W,0.12,266.69,200425,,,D*7F").adjDays
      = 109 := by
  refine ⟨?_, ?_, ?_, ?_, ?_⟩ <;> decide

/-- C2 counterexample: for the valid sentence with UTC time 03:15:20,
offset -5 hours and UTC date 20 Apr 2025 the pre-modulo local hour is
negative, yet the resolver's output date is the UTC date `"20250420"`
itself; `decrementOneDay` of the UTC date is 19 Apr 2025, so the
resolver's output date is not the claimed decremented date. -/
theorem c2_counterexample :
    (resolveStage ⟨-5, 0, 1, 0⟩
        "$GPRMC,031520,A,3704.8298,N,07624.7225,W,0.12,266.69,200425,,,D*7F").dateStr
      = "20250420"
    ∧ (resolveStage ⟨-5, 0, 1, 0⟩
        "$GPRMC,031520,A,3704.8298,N,07624.7225,W,0.12,266.69,200425,,,D*7F").localHours
      = 22
    ∧ decrementOneDay 2025 4 20 = (2025, 4, 19)
    ∧ utcDateString 1 "200425" = "20250420"
    ∧ ("20250420" : String) ≠ "20250419" := by
  refine ⟨?_, ?_, ?_, ?_, ?_⟩ <;> decide

/-- C2 amended: for every sentence and configuration the resolver stage's
output date equals the UTC date string built from field 9 unchanged — the
`adjustDate` call never writes its computed correction back — and in
particular for UTC 03:15:20 with offset -5 the resolved local time is
22:15:20 while the resolved date stays the UTC date 20 Apr 2025 (the
one-day shift happens only later in the formatter). -/
theorem c2_amended :
    (∀ (cfg : Config) (data : String),
      (resolveStage cfg data).dateStr
        = utcDateString cfg.calendarConfiguration (partsVal data 9))
    ∧ resolveStage ⟨-5, 0, 1, 0⟩
        "$GPRMC,031520,A,3704.8298,N,07624.7225,W,0.12,266.69,200425,,,D*7F"
      = ⟨"20250420", 22, 15, 20, 110⟩ := by
  constructor
  · intro cfg data
    simp only [resolveStage, adjustDate_id]
    exact snd_ite_pair _ _ _
  · decide

/-- C3 counterexample: with day-of-year-only mode the formatter's Julian
row for day count 5 is the 5-character string `"00005"`, not an
8-character string as the claim requires of all three rows. -/
theorem c3_counterexample :
    (formatRows ⟨-5, 0, 1, 0⟩ "20250105" 10 0 0 5).julianRow = "00005"
    ∧ (formatRows ⟨-5, 0, 1, 0⟩ "20250105" 10 0 0 5).julianRow.length = 5
    ∧ (5 : Nat) ≠ 8 := by
  refine ⟨?_, ?_, ?_⟩ <;> decide

/-- C3 amended: for every in-range input (8-character date string whose
parsed year/month/day fields are in range, time fields within their
natural ranges, day count 1..366) the time row and the date row are
exactly 8 characters, while the Julian row is 7 characters when
`julianDateConfiguration = 1` (two pad zeros, two year digits, three
day-count digits) and 5 characters otherwise (day count zero-padded to
five); the display loop reads 8 positions, so the missing trailing
positions fall outside the string and are rendered blank. -/
theorem c3_amended (cfg : Config) (date0 : String) (hours minutes seconds n0 : Int)
    (hdate : date0.length = 8)
    (hy1 : 1001 ≤ parsedYear cfg.calendarConfiguration date0)
    (hy2 : parsedYear cfg.calendarConfiguration date0 ≤ 9999)
    (hm1 : 1 ≤ parsedMonth cfg.calendarConfiguration date0)
    (hm2 : parsedMonth cfg.calendarConfiguration date0 ≤ 12)
    (hd1 : 1 ≤ parsedDay cfg.calendarConfiguration date0)
    (hd2 : parsedDay cfg.calendarConfiguration date0 ≤ 31)
    (hh0 : 0 ≤ hours) (hh : hours ≤ 23)
    (hmi0 : 0 ≤ minutes) (hmi : minutes ≤ 59)
    (hs0 : 0 ≤ seconds) (hs : seconds ≤ 59)
    (hn1 : 1 ≤ n0) (hn2 : n0 ≤ 366) :
    (formatRows cfg date0 hours minutes seconds n0).timeRow.length = 8
    ∧ (formatRows cfg date0 hours minutes seconds n0).dateRow.length = 8
    ∧ (formatRows cfg date0 hours minutes seconds n0).julianRow.length
        = if cfg.julianDateConfiguration = 1 then 7 else 5 := by
  have htm : Int.tmod hours 24 = hours := by
    rw [Int.tmod_eq_emod hh0 (by norm_num)]
    exact Int.emod_eq_of_lt hh0 (by omega)
  have hADD := adjustedDateAndDays_spec cfg date0 (Int.tmod hours 24) n0 hdate
    hy1 hy2 hm1 hm2 hd1 hd2 hn1 hn2
  refine ⟨?_, ?_, ?_⟩
  · show (timeRowStr (Int.tmod hours 24) minutes seconds).length = 8
    rw [htm]
    exact timeRowStr_len hours minutes seconds hh0 (by omega) hmi0 (by omega) hs0 (by omega)
  · show (adjustedDateAndDays cfg date0 (Int.tmod hours 24) n0).1.length = 8
    exact hADD.1
  · show (julianRowStr cfg.julianDateConfiguration cfg.calendarConfiguration
        (adjustedDateAndDays cfg date0 (Int.tmod hours 24) n0).1
        (adjustedDateAndDays cfg date0 (Int.tmod hours 24) n0).2).length = _
    exact julianRowStr_len _ _ _ _ hADD.1 hADD.2.1 (by omega)

/-- C3 amended witness: the amended row-length statement instantiated at
date `"20250420"`, local time 22:15:20, day count 110, year-first date
order and year-plus-days Julian mode. -/
theorem c3_amended_witness :
    (("20250420" : String).length = 8
      ∧ 1001 ≤ parsedYear 1 "20250420" ∧ parsedYear 1 "20250420" ≤ 9999
      ∧ 1 ≤ parsedMonth 1 "20250420" ∧ parsedMonth 1 "20250420" ≤ 12
      ∧ 1 ≤ parsedDay 1 "20250420" ∧ parsedDay 1 "20250420" ≤ 31)
    ∧ ((formatRows ⟨-5, 0, 1, 1⟩ "20250420" 22 15 20 110).timeRow.length = 8
      ∧ (formatRows ⟨-5, 0, 1, 1⟩ "20250420" 22 15 20 110).dateRow.length = 8
      ∧ (formatRows ⟨-5, 0, 1, 1⟩ "20250420" 22 15 20 110).julianRow.length
          = if (⟨-5, 0, 1, 1⟩ : Config).julianDateConfiguration = 1 then 7 else 5) :=
  ⟨⟨by decide, by decide, by decide, by decide, by decide, by decide, by decide⟩,
   c3_amended ⟨-5, 0, 1, 1⟩ "20250420" 22 15 20 110 (by decide)
     (by decide) (by decide) (by decide) (by decide) (by decide) (by decide)
     (by decide) (by decide) (by decide) (by decide) (by decide) (by decide)
     (by decide) (by decide)⟩

/-- C4 counterexample: under the claim's bit order (segments in the upper
seven bits, decimal point as least significant bit) the pattern for digit
0 would be 252, but `charToSevenSegment` returns 126; moreover the
returned pattern for digit 2 has its least significant bit set, so if the
decimal point really were the least significant bit it would be lit,
contradicting the claim's own decimal-point-clear statement. -/
theorem c4_counterexample :
    charToSevenSegment '0' = 126
    ∧ patternDPlsb 0 = 252
    ∧ (126 : Nat) ≠ 252
    ∧ charToSevenSegment '2' % 2 = 1 := by
  refine ⟨?_, ?_, ?_, ?_⟩ <;> decide

/-- C4 amended: for each digit character the encoder returns the canonical
seven-segment pattern with the decimal point as the most significant bit
(clear in every pattern, hence all values below 128) and segment A as the
most significant of the seven segment bits; every non-digit character
encodes to 0 (all segments off). -/
theorem c4_amended (d : Nat) (c : Char) (hd : d < 10)
    (hc : ¬('0' ≤ c ∧ c ≤ '9')) :
    charToSevenSegment (Char.ofNat (48 + d)) = patternDPmsb d
    ∧ patternDPmsb d < 128
    ∧ charToSevenSegment c = 0 := by
  refine ⟨?_, ?_, ?_⟩
  · revert hd; revert d; decide
  · revert hd; revert d; decide
  · unfold charToSevenSegment
    rw [if_neg hc]

/-- C4 amended witness: the amended encoder statement at digit 5 and the
non-digit character X. -/
theorem c4_amended_witness :
    (5 < 10 ∧ ¬('0' ≤ 'X' ∧ 'X' ≤ '9'))
    ∧ (charToSevenSegment (Char.ofNat (48 + 5)) = patternDPmsb 5
       ∧ patternDPmsb 5 < 128
       ∧ charToSevenSegment 'X' = 0) :=
  ⟨⟨by decide, by decide⟩, c4_amended 5 'X' (by decide) (by decide)⟩

/-- C5: for every date with month 1..12 and day 1..daysInMonth, the
day-of-year equals the sum of the month lengths strictly before the month
plus the day, lies within 1..366, and at the February/March boundary
March 1 maps to 60 in a common year and 61 in a leap year. -/
theorem c5_dayOfYear (year month day : Int)
    (hm1 : 1 ≤ month) (hm2 : month ≤ 12) (hd1 : 1 ≤ day)
    (hd2 : day ≤ daysInMonth month year) :
    (julianDayOfYear year month day
        = (∑ m in Finset.range (month - 1).toNat, daysInMonth ((m : Int) + 1) year) + day
      ∧ 1 ≤ julianDayOfYear year month day
      ∧ julianDayOfYear year month day ≤ 366)
    ∧ julianDayOfYear year 3 1
        = (if (Int.tmod year 4 = 0 ∧ Int.tmod year 100 ≠ 0) ∨ Int.tmod year 400 = 0
           then 61 else 60) := by
  refine ⟨⟨by rw [julianDayOfYear, monthsSumAux_eq_sum], ?_, ?_⟩, ?_⟩
  · have := monthsSumAux_nonneg year (month - 1).toNat
    unfold julianDayOfYear
    omega
  · interval_cases month <;>
      (simp only [julianDayOfYear, monthsSumAux];
       norm_num [daysInMonth_one, daysInMonth_two, daysInMonth_three, daysInMonth_four,
         daysInMonth_five, daysInMonth_six, daysInMonth_seven, daysInMonth_eight,
         daysInMonth_nine, daysInMonth_ten, daysInMonth_eleven, daysInMonth_twelve]
         at hd2 ⊢) <;>
      omega
  · simp only [julianDayOfYear, monthsSumAux]
    norm_num [daysInMonth_one, daysInMonth_two]
    split_ifs <;> norm_num

/-- C5 witness: the day-of-year statement at 4 Jul 2025 (day 185). -/
theorem c5_dayOfYear_witness :
    ((1 : Int) ≤ 7 ∧ (7 : Int) ≤ 12 ∧ (1 : Int) ≤ 4 ∧ (4 : Int) ≤ daysInMonth 7 2025)
    ∧ (julianDayOfYear 2025 7 4
        = (∑ m in Finset.range ((7 : Int) - 1).toNat, daysInMonth ((m : Int) + 1) 2025) + 4
      ∧ 1 ≤ julianDayOfYear 2025 7 4
      ∧ julianDayOfYear 2025 7 4 ≤ 366) :=
  ⟨⟨by norm_num, by norm_num, by norm_num, by rw [daysInMonth_seven]; norm_num⟩,
   (c5_dayOfYear 2025 7 4 (by norm_num) (by norm_num) (by norm_num)
     (by rw [daysInMonth_seven]; norm_num)).1⟩

/-- C6: the one-day decrement reduces the day by one when day > 1, and on
day 1 rolls to the previous month (December of the previous year when
leaving January) with the day set to that month's length; in particular
(2025,3,1) gives (2025,2,28), (2024,3,1) gives (2024,2,29), and
(2025,1,1) gives (2024,12,31). -/
theorem c6_decrement (year month day : Int) (h : 1 ≤ day) :
    (decrementOneDay year month day =
      if 1 < day then (year, month, day - 1)
      else if month = 1 then (year - 1, 12, daysInMonth 12 (year - 1))
      else (year, month - 1, daysInMonth (month - 1) year))
    ∧ decrementOneDay 2025 3 1 = (2025, 2, 28)
    ∧ decrementOneDay 2024 3 1 = (2024, 2, 29)
    ∧ decrementOneDay 2025 1 1 = (2024, 12, 31) := by
  refine ⟨?_, by decide, by decide, by decide⟩
  unfold decrementOneDay
  by_cases h1 : 1 < day
  · rw [if_pos h1, if_neg (by omega : ¬(day - 1 = 0))]
  · have hd1 : day = 1 := by omega
    subst hd1
    rw [if_neg (by omega : ¬(1 : Int) < 1), if_pos (by omega : (1 : Int) - 1 = 0)]
    by_cases hm : month = 1
    · subst hm
      rw [if_pos rfl, if_pos (by omega : (1 : Int) - 1 = 0)]
    · rw [if_neg hm, if_neg (by omega : ¬(month - 1 = 0))]

/-- C6 witness: the decrement statement at 1 Mar 2025. -/
theorem c6_decrement_witness :
    (1 : Int) ≤ 1 ∧ decrementOneDay 2025 3 1 = (2025, 2, 28) :=
  ⟨by decide, (c6_decrement 2025 3 1 (by decide)).2.1⟩

/-- C7: a sentence that does not begin with the `$GPRMC` tag, or whose
validity field is anything other than `"A"`, produces no update: the
parser returns the stored date and Julian-day strings unchanged and
transmits no register writes. -/
theorem c7_invalid_no_update (cfg : Config) (st : ClockState) (data : String)
    (h : beginsWith data "$GPRMC" = false ∨ partsVal data 2 ≠ "A") :
    parseGPSData cfg st data = (st, []) := by
  unfold parseGPSData
  rcases h with h | h
  · simp [h]
  · by_cases hb : beginsWith data "$GPRMC" <;> simp [hb, h]

/-- C7 witness: a sentence with validity flag V leaves the state of the
stored rows untouched and emits nothing. -/
theorem c7_invalid_no_update_witness :
    (beginsWith "$GPRMC,031520,V,3704.8298,N,07624.7225,W,0.12,266.69,200425,,,D*7F"
        "$GPRMC" = false
      ∨ partsVal "$GPRMC,031520,V,3704.8298,N,07624.7225,W,0.12,266.69,200425,,,D*7F" 2
        ≠ "A")
    ∧ parseGPSData ⟨-5, 0, 1, 0⟩ ⟨"20250105", "00005"⟩
        "$GPRMC,031520,V,3704.8298,N,07624.7225,W,0.12,266.69,200425,,,D*7F"
      = (⟨"20250105", "00005"⟩, []) :=
  ⟨Or.inr (by decide),
   c7_invalid_no_update ⟨-5, 0, 1, 0⟩ ⟨"20250105", "00005"⟩ _ (Or.inr (by decide))⟩

/-- C8: a full frame is exactly 8 combined register writes, one per digit
position carrying that position's opcode for all three chips with the
Julian-days chip's pair first, then the time chip's, then the date
chip's; each write is one chip-select low edge, 48 data bits (3
opcode/data pairs, 6 bytes) and one chip-select high edge, and the
MSB-first bit stream of each byte below 256 reassembles to that byte. -/
theorem c8_frame_shape (r : FormatResult) (w : RegWrite) (i b : Nat)
    (hi : i < 8) (hb : b < 256) :
    (frameWrites r).length = 8
    ∧ (frameWrites r).getD i ⟨0, 0, 0, 0, 0, 0⟩ =
        { opJ := sevenSegmentPosition.getD i 0
          dJ := charToSevenSegment (charAt r.julianRow i)
          opT := sevenSegmentPosition.getD i 0
          dT := charToSevenSegment (charAt r.timeRow i)
          opD := sevenSegmentPosition.getD i 0
          dD := charToSevenSegment (charAt r.dateRow i) }
    ∧ (sendRegister w).length = 50
    ∧ (sendRegister w).head? = some BusEvent.csLow
    ∧ (sendRegister w).getLast? = some BusEvent.csHigh
    ∧ bitsOf (sendRegister w)
        = shiftOutMSBFirst w.opJ ++ shiftOutMSBFirst w.dJ ++ shiftOutMSBFirst w.opT
          ++ shiftOutMSBFirst w.dT ++ shiftOutMSBFirst w.opD ++ shiftOutMSBFirst w.dD
    ∧ (shiftOutMSBFirst b).length = 8
    ∧ byteOfBits (shiftOutMSBFirst b) = b := by
  refine ⟨?_, ?_, ?_, ?_, ?_, ?_, shiftOut_length b, byteOfBits_shiftOut b hb⟩
  · simp [frameWrites]
  · interval_cases i <;> rfl
  · simp [sendRegister, shiftOut_length]
  · rfl
  · have hshape : sendRegister w =
        (BusEvent.csLow ::
          ((shiftOutMSBFirst w.opJ ++ shiftOutMSBFirst w.dJ ++
            shiftOutMSBFirst w.opT ++ shiftOutMSBFirst w.dT ++
            shiftOutMSBFirst w.opD ++ shiftOutMSBFirst w.dD).map BusEvent.bit))
          ++ [BusEvent.csHigh] := by
      simp [sendRegister]
    rw [hshape, List.getLast?_concat]
  · simp [sendRegister, bitsOf_append, bitsOf_mapBit]
    rfl

/-- C8 witness: the frame-shape statement at position 0 and byte 109 for
concrete rows. -/
theorem c8_frame_shape_witness :
    ((0 < 8 ∧ 109 < 256) ∧
      (frameWrites ⟨"20250419", "00221520", "00109", 109⟩).length = 8
      ∧ byteOfBits (shiftOutMSBFirst 109) = 109) :=
  ⟨⟨by decide, by decide⟩,
   (c8_frame_shape ⟨"20250419", "00221520", "00109", 109⟩ ⟨1, 126, 1, 126, 1, 126⟩
      0 109 (by decide) (by decide)).1,
   (c8_frame_shape ⟨"20250419", "00221520", "00109", 109⟩ ⟨1, 126, 1, 126, 1, 126⟩
      0 109 (by decide) (by decide)).2.2.2.2.2.2.2⟩

/-- C9: the current revision's `adjustDate` parses its by-reference date
string and computes a year/month/day correction, but never assigns the
result back, so for every argument triple the caller's string equals its
value before the call and the resolver-stage date adjustment has no
observable effect. -/
theorem c9_adjustDate_no_writeback (dateStr : String) (localHours utcHours : Int) :
    adjustDate dateStr localHours utcHours = dateStr :=
  adjustDate_id dateStr localHours utcHours

/-- C10: the field-splitting loop's array writes stay within the
13-element `parts` array for every line with at most 12 commas, but a
line with 13 or more commas makes the loop write at an index past 12,
outside the array. -/
theorem c10_split_bounds :
    (∀ data : String, commaCount data ≤ 12 → ∀ p ∈ splitWrites data, p.1 < 13)
    ∧ (∃ data : String, 13 ≤ commaCount data ∧ ∃ p ∈ splitWrites data, 12 < p.1) := by
  constructor
  · intro data hc p hp
    have := splitLoop_fst_le data.data 0 "" p hp
    unfold commaCount at hc
    omega
  · exact ⟨",,,,,,,,,,,,,", by decide, (13, ""), by decide, by decide⟩

/-- C10 witness: the in-bounds half of the splitting statement at a
well-formed 12-comma sentence. -/
theorem c10_split_bounds_witness :
    commaCount "$GPRMC,031520,A,3704.8298,N,07624.7225,W,0.12,266.69,200425,,,D*7F" ≤ 12
    ∧ ∀ p ∈ splitWrites "$GPRMC,031520,A,3704.8298,N,07624.7225,W,0.12,266.69,200425,,,D*7F",
        p.1 < 13 :=
  ⟨by decide, c10_split_bounds.1 _ (by decide)⟩

end GPSClock
